import Mathlib

/-!
Shallow embedding of the `go-awsbilling` cost-report tool: the time-indexed
line-item store (`Report`), its ingestion (`AddLineItem`), the range query
(`FilterByTime`), the group-by-sum aggregation (`GroupBy`), and the record
decoder (`NewLineItem`, `NewBill`), together with the earlier
`Identity`/`LineItemID` version of the store.

Go `time.Time` values are modelled as `Int` instants (`After` is `<` read
right-to-left); `float64` cost fields are modelled as `ℚ`; Go maps are
modelled as association lists with first-match lookup and in-place
replacement on insert; the standard-library parsers (`strconv.ParseFloat`,
`strconv.ParseUint`, `time.Parse`, `xxhash.Sum64String`) are external
collaborators and are abstracted as a `ParseEnv` of `Option`-returning
functions.
-/

namespace AwsBilling

/-- Association-list model of a Go map: first-match lookup. -/
def mapLookup {κ ν : Type} [DecidableEq κ] : List (κ × ν) → κ → Option ν
  | [], _ => none
  | (k2, v) :: rest, k => if k2 = k then some v else mapLookup rest k

/-- Association-list model of a Go map: insert replaces the binding in place. -/
def mapInsert {κ ν : Type} [DecidableEq κ] : List (κ × ν) → κ → ν → List (κ × ν)
  | [], k, v => [(k, v)]
  | (k2, v2) :: rest, k, v =>
      if k2 = k then (k2, v) :: rest else (k2, v2) :: mapInsert rest k v

/-- Billing-statement metadata attached to a line item (`Bill` in the source). -/
structure Bill where
  BillingEntity : String
  BillType : String
  InvoiceID : String
  PayerAccountID : Nat
  BillingPeriodEndDate : Int
  BillingPeriodStartDate : Int
deriving DecidableEq

/-- The Go zero value of `Bill`; stands in for dereferencing a `*Bill` that the
program guarantees is set (a nil pointer would panic in Go). -/
def billZero : Bill :=
  { BillingEntity := "", BillType := "", InvoiceID := "", PayerAccountID := 0,
    BillingPeriodEndDate := 0, BillingPeriodStartDate := 0 }

/-- One billed usage record (`LineItem` in the second, `Report`-based version of
the source). `Bill` is a nilable pointer in Go, hence `Option`. -/
structure LineItem where
  UID : Nat
  Start : Int
  End : Int
  AvailabilityZone : String
  BlendedCost : ℚ
  BlendedRate : ℚ
  CurrencyCode : String
  LegalEntity : String
  LineItemDescription : String
  LineItemType : String
  NormalizationFactor : ℚ
  Operation : String
  ProductCode : String
  ResourceID : String
  TaxType : String
  UnblendedCost : ℚ
  UnblendedRate : ℚ
  UsageAccountID : String
  UsageAmount : Int
  UsageEndDate : Int
  UsageStartDate : Int
  UsageType : String
  Bill : Option Bill
deriving DecidableEq

/-- The time-indexed store (`Report` in the source). -/
structure Report where
  LineItems : List (Int × List LineItem)
  TimePts : List Int
deriving DecidableEq

/-- The empty store, as produced at the top of `NewReport`. -/
def Report.empty : Report := { LineItems := [], TimePts := [] }

/-- The backward scan of `AddLineItem`'s index maintenance, expressed on the
reversed index: walking `rl = TimePts.reverse` from its head is walking
`TimePts` from its end; `t` is placed before the first element it is `After`
(strictly greater than), and at the far end (the front of `TimePts`) if it is
`After` no element. -/
def insertRevList (t : Int) : List Int → List Int
  | [] => [t]
  | x :: xs => if x < t then t :: x :: xs else x :: insertRevList t xs

/-- Index maintenance of `AddLineItem`: insert a fresh start timestamp into the
sorted `TimePts` sequence via the backward linear scan. -/
def insertTimePt (tps : List Int) (t : Int) : List Int :=
  (insertRevList t tps.reverse).reverse

/-- `Report.AddLineItem` from the source: dedup scan of the bucket at
`l.Start`, append to an existing bucket, or create the bucket and insert the
new start time into the sorted index. -/
def Report.AddLineItem (r : Report) (l : LineItem) : Report :=
  match mapLookup r.LineItems l.Start with
  | some lids =>
      if lids.any (fun lid => lid.UID == l.UID) then r
      else { r with LineItems := mapInsert r.LineItems l.Start (lids ++ [l]) }
  | none =>
      { LineItems := mapInsert r.LineItems l.Start [l],
        TimePts := insertTimePt r.TimePts l.Start }

/-- Ingest a list of items into an initially empty store, one `AddLineItem`
call per item, as `NewReport`'s row loop does. -/
def buildReport (items : List LineItem) : Report :=
  items.foldl Report.AddLineItem Report.empty

/-- The scan at the top of `FilterByTime`: the index of the first entry of
`TimePts` strictly after `e` (the loop's `endIdx`), or the length if none is. -/
def firstAfter (e : Int) : List Int → Nat
  | [] => 0
  | t :: ts => if e < t then 0 else firstAfter e ts + 1

/-- `Report.FilterByTime` from the source: walk the buckets of the first
`endIdx` entries of `TimePts`, keeping the items whose `End` is strictly after
`s`; a missing bucket reads as the empty (nil) slice. -/
def Report.FilterByTime (r : Report) (s e : Int) : List LineItem :=
  (r.TimePts.take (firstAfter e r.TimePts)).foldl
    (fun acc t =>
      acc ++ ((mapLookup r.LineItems t).getD []).filter (fun item => s < item.End))
    []

/-- The `switch` of `GroupBy` building `keyParts`: each recognized field name
appends that field's string value; an unrecognized name only logs and appends
nothing. -/
def keyPartsOf (item : LineItem) (fields : List String) : List String :=
  fields.foldl
    (fun keyParts field =>
      if field = "lineItem/LineItemType" then keyParts ++ [item.LineItemType]
      else if field = "lineItem/Operation" then keyParts ++ [item.Operation]
      else if field = "lineItem/ProductCode" then keyParts ++ [item.ProductCode]
      else if field = "lineItem/ResourceId" then keyParts ++ [item.ResourceID]
      else if field = "lineItem/TaxType" then keyParts ++ [item.TaxType]
      else if field = "lineItem/UsageAccountId" then keyParts ++ [item.UsageAccountID]
      else if field = "lineItem/UsageType" then keyParts ++ [item.UsageType]
      else if field = "bill/PayerAccountId" then
        keyParts ++ [toString (item.Bill.getD billZero).PayerAccountID]
      else keyParts)
    []

/-- The composite key of `GroupBy`: `strings.Join(keyParts, "_")`. -/
def keyOf (item : LineItem) (fields : List String) : String :=
  String.intercalate "_" (keyPartsOf item fields)

/-- `res[key] += v` on the association-list model of the result map: a missing
key reads as 0 before the addition. -/
def resAdd : List (String × ℚ) → String → ℚ → List (String × ℚ)
  | [], k, v => [(k, v)]
  | (k2, v2) :: rest, k, v =>
      if k2 = k then (k2, v2 + v) :: rest else (k2, v2) :: resAdd rest k v

/-- Lookup in the aggregation result map. -/
def resLookup (m : List (String × ℚ)) (k : String) : Option ℚ :=
  mapLookup m k

/-- The accumulation loop of `GroupBy` over an item list: build the composite
key, then add `UnblendedCost` under it only when the cost is strictly
positive. -/
def groupItems (fields : List String) (items : List LineItem) : List (String × ℚ) :=
  items.foldl
    (fun res item =>
      let key := keyOf item fields
      if 0 < item.UnblendedCost then resAdd res key item.UnblendedCost else res)
    []

/-- `Report.GroupBy` from the source: range-filter then group-by-sum. -/
def Report.GroupBy (r : Report) (fields : List String) (s e : Int) : List (String × ℚ) :=
  groupItems fields (r.FilterByTime s e)

/-- State-instrumented `FilterByTime`: the Go method takes its receiver by
value but shares the underlying map and slice with the caller, so a write to
either would be visible; the body only reads them, so the store handed back is
the input store. -/
def Report.FilterByTimeS (r : Report) (s e : Int) : Report × List LineItem :=
  (r, r.FilterByTime s e)

/-- State-instrumented `GroupBy`: `res` is a fresh local map, and the only
store accesses are the reads inside `FilterByTime`, so the store handed back
is the input store. -/
def Report.GroupByS (r : Report) (fields : List String) (s e : Int) :
    Report × List (String × ℚ) :=
  (r, r.GroupBy fields s e)

/-- An item is stored in the report when the bucket the map yields at some
timestamp contains it. -/
def storedIn (r : Report) (item : LineItem) : Prop :=
  ∃ t lids, mapLookup r.LineItems t = some lids ∧ item ∈ lids

/-- Invariant I1 of the store: the index is strictly ascending and its entries
are exactly the keys of the bucket map. -/
def ReportInv (r : Report) : Prop :=
  r.TimePts.Pairwise (· < ·) ∧
  (∀ t ∈ r.TimePts, (mapLookup r.LineItems t).isSome = true) ∧
  (∀ p ∈ r.LineItems, p.1 ∈ r.TimePts)

/-- Every bucket holds only items whose `Start` equals the bucket's key, as
ingestion guarantees. -/
def bucketsCoherent (r : Report) : Prop :=
  ∀ p ∈ r.LineItems, ∀ x ∈ p.2, x.Start = p.1

/-- Modelled from the spec: the fixed enumeration of recognized group-by field
names ("line-item type, operation, product code, resource id, tax type, usage
account id, usage type, payer account id"). -/
def recognizedField (field : String) : Bool :=
  ["lineItem/LineItemType", "lineItem/Operation", "lineItem/ProductCode",
   "lineItem/ResourceId", "lineItem/TaxType", "lineItem/UsageAccountId",
   "lineItem/UsageType", "bill/PayerAccountId"].contains field

/-- Modelled from the spec: "the string representation of each named field",
`none` for an unrecognized name (which "contributes nothing to the key"); the
payer account id is pulled from the item's embedded Bill. -/
def specFieldValue (item : LineItem) (field : String) : Option String :=
  if field = "lineItem/LineItemType" then some item.LineItemType
  else if field = "lineItem/Operation" then some item.Operation
  else if field = "lineItem/ProductCode" then some item.ProductCode
  else if field = "lineItem/ResourceId" then some item.ResourceID
  else if field = "lineItem/TaxType" then some item.TaxType
  else if field = "lineItem/UsageAccountId" then some item.UsageAccountID
  else if field = "lineItem/UsageType" then some item.UsageType
  else if field = "bill/PayerAccountId" then
    some (toString (item.Bill.getD billZero).PayerAccountID)
  else none

/-! ### The record decoder -/

/-- The standard-library parsers the decoder calls, abstracted: `parseFloat`
is `strconv.ParseFloat(_, 64)`, `parseUint` is `strconv.ParseUint(_, 10, 64)`,
`parseTime` is `time.Parse(timeLayout, _)`, and `sum64` is
`xxhash.Sum64String`; `none` stands for a non-nil error. -/
structure ParseEnv where
  parseFloat : String → Option ℚ
  parseUint : String → Option Nat
  parseTime : String → Option Int
  sum64 : String → Nat

/-- Split a character list at every occurrence of `c`, keeping empty pieces. -/
def splitCharList (c : Char) : List Char → List (List Char)
  | [] => [[]]
  | ch :: rest =>
      if ch = c then [] :: splitCharList c rest
      else
        match splitCharList c rest with
        | [] => [[ch]]
        | piece :: pieces => (ch :: piece) :: pieces

/-- `strings.Split(s, sep)` for the single-character separator the source
uses: `Split("a/b", "/") = ["a", "b"]` and `Split("", "/") = [""]`. -/
def splitOnChar (c : Char) (s : String) : List String :=
  (splitCharList c s.toList).map (fun l => String.mk l)

/-- A strict numeric field: parse or fail with the field's error message. -/
def parseFloatField (env : ParseEnv) (s msg : String) : Except String ℚ :=
  match env.parseFloat s with
  | some v => Except.ok v
  | none => Except.error msg

/-- A lenient numeric field (`normalizationFactor`, `unblendedRate`): the
parse error is suppressed when the string is empty, in which case the field
keeps the 0 Go `ParseFloat` returned alongside the error. -/
def parseFloatLenient (env : ParseEnv) (s msg : String) : Except String ℚ :=
  match env.parseFloat s with
  | some v => Except.ok v
  | none => if s = "" then Except.ok 0 else Except.error msg

/-- A timestamp field: parse with the fixed layout or fail. -/
def parseTimeField (env : ParseEnv) (s msg : String) : Except String Int :=
  match env.parseTime s with
  | some v => Except.ok v
  | none => Except.error msg

/-- `NewLineItem` of the `Report`-based version: hash the identifier, split
and parse the interval, then parse the numeric and timestamp fields in source
order. `az` and `usageAmount` are never read, so `AvailabilityZone` and
`UsageAmount` keep their Go zero values; `Bill` stays nil. -/
def NewLineItem (env : ParseEnv)
    (id timeInterval az blendedCost blendedRate currencyCode legalEntity
      lineItemDescription lineItemType normalizationFactor operation productCode
      resourceID taxType unblendedCost unblendedRate usageAccountID usageAmount
      usageStart usageEnd usageType : String) : Except String LineItem :=
  let uid := env.sum64 id
  match splitOnChar '/' timeInterval with
  | [startStr, endStr] => do
      let startT ← parseTimeField env startStr "Could not parse start interval"
      let endT ← parseTimeField env endStr "Coult not parse end interval"
      let bc ← parseFloatField env blendedCost "Could not parse blendedCost"
      let br ← parseFloatField env blendedRate "Could not parse blendedRate"
      let nf ← parseFloatLenient env normalizationFactor "Could not parse normalizationFactor"
      let uc ← parseFloatField env unblendedCost "Could not parse unblendedCost"
      let ur ← parseFloatLenient env unblendedRate "Could not parse unblendedRate"
      let usd ← parseTimeField env usageStart "Could not parse start interval"
      let ued ← parseTimeField env usageEnd "Coult not parse end interval"
      Except.ok
        { UID := uid, Start := startT, End := endT, AvailabilityZone := "",
          BlendedCost := bc, BlendedRate := br, CurrencyCode := currencyCode,
          LegalEntity := legalEntity, LineItemDescription := lineItemDescription,
          LineItemType := lineItemType, NormalizationFactor := nf,
          Operation := operation, ProductCode := productCode,
          ResourceID := resourceID, TaxType := taxType, UnblendedCost := uc,
          UnblendedRate := ur, UsageAccountID := usageAccountID,
          UsageAmount := 0, UsageEndDate := ued, UsageStartDate := usd,
          UsageType := usageType, Bill := none }
  | _ => Except.error ("Invalid time interval, " ++ timeInterval)

/-- `NewBill` from the source: strict `ParseUint` on the payer account id,
then the two billing-period timestamps. -/
def NewBill (env : ParseEnv)
    (entity billType invoiceID payerAccountID start stop : String) :
    Except String Bill := do
  let pid ←
    match env.parseUint payerAccountID with
    | some v => Except.ok v
    | none => Except.error ("Unable to parse PayerAccountID, " ++ payerAccountID)
  let bps ← parseTimeField env start "Could not parse start interval"
  let bpe ← parseTimeField env stop "Coult not parse end interval"
  Except.ok
    { BillingEntity := entity, BillType := billType, InvoiceID := invoiceID,
      PayerAccountID := pid, BillingPeriodStartDate := bps,
      BillingPeriodEndDate := bpe }

/-- One iteration of `NewReport`'s row loop: `NewLineItem` with the row's
columns — the blendedRate argument is fed from the `lineItem/BlendedCost`
column — then `NewBill`, attached to the item. A row is modelled as the
column-name-to-value reading the header index provides. -/
def reportRow (env : ParseEnv) (row : String → String) : Except String LineItem := do
  let l ← NewLineItem env
    (row "identity/LineItemId") (row "identity/TimeInterval")
    (row "lineItem/AvailabilityZone") (row "lineItem/BlendedCost")
    (row "lineItem/BlendedCost") (row "lineItem/CurrencyCode")
    (row "lineItem/LegalEntity") (row "lineItem/LineItemDescription")
    (row "lineItem/LineItemType") (row "lineItem/NormalizationFactor")
    (row "lineItem/Operation") (row "lineItem/ProductCode")
    (row "lineItem/ResourceId") (row "lineItem/TaxType")
    (row "lineItem/UnblendedCost") (row "lineItem/UnblendedRate")
    (row "lineItem/UsageAccountId") (row "lineItem/UsageAmount")
    (row "lineItem/UsageStartDate") (row "lineItem/UsageEndDate")
    (row "lineItem/UsageType")
  let b ← NewBill env
    (row "bill/Entity") (row "bill/BillType") (row "bill/InvoiceId")
    (row "bill/PayerAccountId") (row "bill/BillingPeriodStartDate")
    (row "bill/BillingPeriodEndDate")
  Except.ok { l with Bill := some b }

/-! ### The earlier `Identity`-based version of the program -/

namespace V1

/-- `LineItem` of the first version of the source: the usage record without
the identity/interval fields, which live on `LineItemID` there. -/
structure LineItem where
  AvailabilityZone : String
  BlendedCost : ℚ
  BlendedRate : ℚ
  CurrencyCode : String
  LegalEntity : String
  LineItemDescription : String
  LineItemType : String
  NormalizationFactor : ℚ
  Operation : String
  ProductCode : String
  ResourceID : String
  TaxType : String
  UnblendedCost : ℚ
  UnblendedRate : ℚ
  UsageAccountID : String
  UsageAmount : Int
  UsageEndDate : Int
  UsageStartDate : Int
  UsageType : String
deriving DecidableEq

/-- `LineItemID` of the first version: the hashed identity and interval, with
nilable pointers to the bill and the usage record. -/
structure LineItemID where
  UID : Nat
  Start : Int
  End : Int
  Bill : Option AwsBilling.Bill
  LineItem : Option V1.LineItem
deriving DecidableEq

/-- `NewLineItemID` from the first version: hash the identifier and split and
parse the two-part interval; `Bill` and `LineItem` stay nil. -/
def NewLineItemID (env : ParseEnv) (id timeInterval : String) :
    Except String LineItemID :=
  let uid := env.sum64 id
  match splitOnChar '/' timeInterval with
  | [startStr, endStr] => do
      let startT ← parseTimeField env startStr "Could not parse start interval"
      let endT ← parseTimeField env endStr "Coult not parse end interval"
      Except.ok { UID := uid, Start := startT, End := endT, Bill := none,
                  LineItem := none }
  | _ => Except.error ("Invalid time interval, " ++ timeInterval)

/-- `NewLineItem` of the first version: the same field parses in the same
order, without the identity/interval handling; `az` and `usageAmount` are
again never read. -/
def NewLineItem (env : ParseEnv)
    (az blendedCost blendedRate currencyCode legalEntity lineItemDescription
      lineItemType normalizationFactor operation productCode resourceID taxType
      unblendedCost unblendedRate usageAccountID usageAmount usageStart usageEnd
      usageType : String) : Except String V1.LineItem := do
  let bc ← parseFloatField env blendedCost "Could not parse blendedCost"
  let br ← parseFloatField env blendedRate "Could not parse blendedRate"
  let nf ← parseFloatLenient env normalizationFactor "Could not parse normalizationFactor"
  let uc ← parseFloatField env unblendedCost "Could not parse unblendedCost"
  let ur ← parseFloatLenient env unblendedRate "Could not parse unblendedRate"
  let usd ← parseTimeField env usageStart "Could not parse start interval"
  let ued ← parseTimeField env usageEnd "Coult not parse end interval"
  Except.ok
    { AvailabilityZone := "", BlendedCost := bc, BlendedRate := br,
      CurrencyCode := currencyCode, LegalEntity := legalEntity,
      LineItemDescription := lineItemDescription, LineItemType := lineItemType,
      NormalizationFactor := nf, Operation := operation,
      ProductCode := productCode, ResourceID := resourceID, TaxType := taxType,
      UnblendedCost := uc, UnblendedRate := ur,
      UsageAccountID := usageAccountID, UsageAmount := 0,
      UsageEndDate := ued, UsageStartDate := usd, UsageType := usageType }

/-- `Identity` of the first version: the same two-part store shape. -/
structure Identity where
  LineItemIDs : List (Int × List LineItemID)
  TimePts : List Int
deriving DecidableEq

/-- The empty `Identity`, as `NewIdentity` returns. -/
def Identity.empty : Identity := { LineItemIDs := [], TimePts := [] }

/-- `Identity.AddLineItemID` from the first version. In the existing-bucket,
no-duplicate branch the Go code appends to the local copy of the slice header
(`lids = append(lids, l)`) and returns without storing it back, so the bucket
the map yields is unchanged: observably the store is untouched. -/
def Identity.AddLineItemID (i : Identity) (l : LineItemID) : Identity :=
  match mapLookup i.LineItemIDs l.Start with
  | some lids =>
      if lids.any (fun lid => lid.UID == l.UID) then i
      else i
  | none =>
      { LineItemIDs := mapInsert i.LineItemIDs l.Start [l],
        TimePts := insertTimePt i.TimePts l.Start }

/-- One iteration of the first version's `main` row loop: `NewLineItemID`,
then the bill, then the usage record — whose blendedRate argument is again fed
from the `lineItem/BlendedCost` column — attached to the id. -/
def mainRow (env : ParseEnv) (row : String → String) : Except String LineItemID := do
  let lid ← NewLineItemID env
    (row "identity/LineItemId") (row "identity/TimeInterval")
  let b ← NewBill env
    (row "bill/Entity") (row "bill/BillType") (row "bill/InvoiceId")
    (row "bill/PayerAccountId") (row "bill/BillingPeriodStartDate")
    (row "bill/BillingPeriodEndDate")
  let li ← V1.NewLineItem env
    (row "lineItem/AvailabilityZone") (row "lineItem/BlendedCost")
    (row "lineItem/BlendedCost") (row "lineItem/CurrencyCode")
    (row "lineItem/LegalEntity") (row "lineItem/LineItemDescription")
    (row "lineItem/LineItemType") (row "lineItem/NormalizationFactor")
    (row "lineItem/Operation") (row "lineItem/ProductCode")
    (row "lineItem/ResourceId") (row "lineItem/TaxType")
    (row "lineItem/UnblendedCost") (row "lineItem/UnblendedRate")
    (row "lineItem/UsageAccountId") (row "lineItem/UsageAmount")
    (row "lineItem/UsageStartDate") (row "lineItem/UsageEndDate")
    (row "lineItem/UsageType")
  Except.ok { lid with Bill := some b, LineItem := some li }

end V1

/-! ### Concrete fixtures -/

/-- A line item with the fields the store and the queries inspect set and the
rest at their zero values. -/
def mkItem (uid : Nat) (start stop : Int) (cost : ℚ) (product op : String) : LineItem :=
  { UID := uid, Start := start, End := stop, AvailabilityZone := "",
    BlendedCost := 0, BlendedRate := 0, CurrencyCode := "", LegalEntity := "",
    LineItemDescription := "", LineItemType := "", NormalizationFactor := 0,
    Operation := op, ProductCode := product, ResourceID := "", TaxType := "",
    UnblendedCost := cost, UnblendedRate := 0, UsageAccountID := "",
    UsageAmount := 0, UsageEndDate := 0, UsageStartDate := 0, UsageType := "",
    Bill := none }

def itemA : LineItem := mkItem 1 100 200 10 "A" "opA"

def itemB : LineItem := mkItem 2 100 300 5 "B" "opB"

def itemC : LineItem := mkItem 3 50 120 3 "A" "opA"

def itemD : LineItem := mkItem 4 60 130 (-2) "D" "opD"

def storeABC : Report := buildReport [itemA, itemB, itemC]

def storeAD : Report := buildReport [itemA, itemD]

def lidA : V1.LineItemID :=
  { UID := 1, Start := 100, End := 200, Bill := none, LineItem := none }

def lidB : V1.LineItemID :=
  { UID := 2, Start := 100, End := 300, Bill := none, LineItem := none }

/-- A concrete parser environment for exercising the decoder on closed inputs:
a few numerals and timestamps parse, everything else fails. -/
def testEnv : ParseEnv :=
  { parseFloat := fun s =>
      if s = "10" then some 10
      else if s = "5" then some 5
      else if s = "0" then some 0
      else if s = "-2" then some (-2)
      else none,
    parseUint := fun s => if s = "7" then some 7 else none,
    parseTime := fun s =>
      if s = "T1" then some 1
      else if s = "T2" then some 2
      else if s = "T3" then some 3
      else none,
    sum64 := fun s => s.length }

/-- A concrete row, as the column-name-to-value reading: empty normalization
factor and unblended rate, parseable values everywhere else. -/
def row0 : String → String := fun col =>
  if col = "identity/TimeInterval" then "T1/T2"
  else if col = "lineItem/BlendedCost" then "10"
  else if col = "lineItem/UnblendedCost" then "5"
  else if col = "lineItem/UsageStartDate" then "T1"
  else if col = "lineItem/UsageEndDate" then "T2"
  else if col = "bill/PayerAccountId" then "7"
  else if col = "bill/BillingPeriodStartDate" then "T1"
  else if col = "bill/BillingPeriodEndDate" then "T2"
  else ""

/-- The line item `reportRow testEnv row0` decodes. -/
def item9 : LineItem :=
  { UID := 0, Start := 1, End := 2, AvailabilityZone := "", BlendedCost := 10,
    BlendedRate := 10, CurrencyCode := "", LegalEntity := "",
    LineItemDescription := "", LineItemType := "", NormalizationFactor := 0,
    Operation := "", ProductCode := "", ResourceID := "", TaxType := "",
    UnblendedCost := 5, UnblendedRate := 0, UsageAccountID := "",
    UsageAmount := 0, UsageEndDate := 2, UsageStartDate := 1, UsageType := "",
    Bill := some { BillingEntity := "", BillType := "", InvoiceID := "",
                   PayerAccountID := 7, BillingPeriodEndDate := 2,
                   BillingPeriodStartDate := 1 } }

/-- The line-item id `V1.mainRow testEnv row0` decodes. -/
def lid9 : V1.LineItemID :=
  { UID := 0, Start := 1, End := 2,
    Bill := some { BillingEntity := "", BillType := "", InvoiceID := "",
                   PayerAccountID := 7, BillingPeriodEndDate := 2,
                   BillingPeriodStartDate := 1 },
    LineItem := some
      { AvailabilityZone := "", BlendedCost := 10, BlendedRate := 10,
        CurrencyCode := "", LegalEntity := "", LineItemDescription := "",
        LineItemType := "", NormalizationFactor := 0, Operation := "",
        ProductCode := "", ResourceID := "", TaxType := "", UnblendedCost := 5,
        UnblendedRate := 0, UsageAccountID := "", UsageAmount := 0,
        UsageEndDate := 2, UsageStartDate := 1, UsageType := "" } }

/-- The usage record embedded in `lid9`. -/
def li9 : V1.LineItem :=
  { AvailabilityZone := "", BlendedCost := 10, BlendedRate := 10,
    CurrencyCode := "", LegalEntity := "", LineItemDescription := "",
    LineItemType := "", NormalizationFactor := 0, Operation := "",
    ProductCode := "", ResourceID := "", TaxType := "", UnblendedCost := 5,
    UnblendedRate := 0, UsageAccountID := "", UsageAmount := 0,
    UsageEndDate := 2, UsageStartDate := 1, UsageType := "" }

/-- The line item `NewLineItem` alone decodes from `row0`: as `item9` but with
the bill still nil. -/
def item10 : LineItem := { item9 with Bill := none }

/-! ### Helper lemmas -/

theorem mem_foldl_append {α β : Type} (f : α → List β) (x : β) :
    ∀ (ts : List α) (acc : List β),
      (x ∈ ts.foldl (fun a t => a ++ f t) acc) ↔ x ∈ acc ∨ ∃ t ∈ ts, x ∈ f t := by
  intro ts
  induction ts with
  | nil => simp
  | cons t ts ih =>
      intro acc
      rw [List.foldl_cons, ih]
      simp [List.mem_append]
      tauto

theorem mem_take_firstAfter (e : Int) :
    ∀ (l : List Int), l.Pairwise (· < ·) →
      ∀ x : Int, x ∈ l.take (firstAfter e l) ↔ x ∈ l ∧ x ≤ e := by
  intro l
  induction l with
  | nil => simp [firstAfter]
  | cons t ts ih =>
      intro hp x
      rw [List.pairwise_cons] at hp
      by_cases h : e < t
      · simp only [firstAfter, if_pos h, List.take_zero, List.not_mem_nil,
          false_iff, not_and, List.mem_cons]
        rintro (rfl | hx)
        · intro hxe; exact absurd hxe (not_le.mpr h)
        · intro hxe; exact absurd hxe (not_le.mpr (h.trans (hp.1 x hx)))
      · simp only [firstAfter, if_neg h, List.take_succ_cons, List.mem_cons,
          ih hp.2 x]
        constructor
        · rintro (rfl | ⟨hx, hxe⟩)
          · exact ⟨Or.inl rfl, le_of_not_lt h⟩
          · exact ⟨Or.inr hx, hxe⟩
        · rintro ⟨rfl | hx, hxe⟩
          · exact Or.inl rfl
          · exact Or.inr ⟨hx, hxe⟩

theorem mapLookup_mem {κ ν : Type} [DecidableEq κ] :
    ∀ (m : List (κ × ν)) (k : κ) (v : ν), mapLookup m k = some v → (k, v) ∈ m := by
  intro m
  induction m with
  | nil => intro k v h; simp [mapLookup] at h
  | cons p rest ih =>
      intro k v h
      obtain ⟨k2, v2⟩ := p
      by_cases hk : k2 = k
      · subst hk
        simp [mapLookup] at h
        subst h
        exact List.mem_cons_self _ _
      · simp [mapLookup, hk] at h
        exact List.mem_cons_of_mem _ (ih k v h)

theorem mapLookup_insert_self {κ ν : Type} [DecidableEq κ] :
    ∀ (m : List (κ × ν)) (k : κ) (v : ν), mapLookup (mapInsert m k v) k = some v := by
  intro m
  induction m with
  | nil => intro k v; simp [mapInsert, mapLookup]
  | cons p rest ih =>
      intro k v
      obtain ⟨k2, v2⟩ := p
      by_cases hk : k2 = k
      · subst hk; simp [mapInsert, mapLookup]
      · simp [mapInsert, mapLookup, hk, ih]

theorem mapLookup_insert_ne {κ ν : Type} [DecidableEq κ] :
    ∀ (m : List (κ × ν)) (k k2 : κ) (v : ν), k2 ≠ k →
      mapLookup (mapInsert m k v) k2 = mapLookup m k2 := by
  intro m
  induction m with
  | nil =>
      intro k k2 v hne
      simp only [mapInsert, mapLookup]
      rw [if_neg (fun h => hne h.symm)]
  | cons p rest ih =>
      intro k k2 v hne
      obtain ⟨k3, v3⟩ := p
      by_cases hk : k3 = k
      · subst hk
        simp only [mapInsert, if_pos rfl, mapLookup]
        rw [if_neg (fun h => hne h.symm), if_neg (fun h => hne h.symm)]
      · simp only [mapInsert, if_neg hk, mapLookup]
        by_cases hk2 : k3 = k2
        · rw [if_pos hk2, if_pos hk2]
        · rw [if_neg hk2, if_neg hk2, ih k k2 v hne]

theorem mem_mapInsert {κ ν : Type} [DecidableEq κ] :
    ∀ (m : List (κ × ν)) (k : κ) (v : ν) (p : κ × ν),
      p ∈ mapInsert m k v → p = (k, v) ∨ p ∈ m := by
  intro m
  induction m with
  | nil => intro k v p hp; simp [mapInsert] at hp; exact Or.inl hp
  | cons q rest ih =>
      intro k v p hp
      obtain ⟨k2, v2⟩ := q
      by_cases hk : k2 = k
      · subst hk
        simp [mapInsert] at hp
        rcases hp with rfl | hp
        · exact Or.inl rfl
        · exact Or.inr (List.mem_cons_of_mem _ hp)
      · simp [mapInsert, hk] at hp
        rcases hp with rfl | hp
        · exact Or.inr (List.mem_cons_self _ _)
        · rcases ih k v p hp with h | h
          · exact Or.inl h
          · exact Or.inr (List.mem_cons_of_mem _ h)

theorem mem_insertRevList (t : Int) :
    ∀ (l : List Int) (x : Int), x ∈ insertRevList t l ↔ x = t ∨ x ∈ l := by
  intro l
  induction l with
  | nil => intro x; simp [insertRevList]
  | cons y ys ih =>
      intro x
      by_cases h : y < t
      · rw [insertRevList, if_pos h]
        simp [List.mem_cons]
      · rw [insertRevList, if_neg h]
        simp only [List.mem_cons, ih]
        tauto

theorem pairwise_insertRevList (t : Int) :
    ∀ (l : List Int), l.Pairwise (· > ·) → (∀ x ∈ l, x ≠ t) →
      (insertRevList t l).Pairwise (· > ·) := by
  intro l
  induction l with
  | nil => intro _ _; simp [insertRevList]
  | cons y ys ih =>
      intro hp hne
      rw [List.pairwise_cons] at hp
      by_cases h : y < t
      · rw [insertRevList, if_pos h]
        refine List.pairwise_cons.mpr ⟨?_, List.pairwise_cons.mpr ⟨hp.1, hp.2⟩⟩
        intro z hz
        rcases List.mem_cons.mp hz with rfl | hz
        · exact h
        · exact lt_trans (hp.1 z hz) h
      · rw [insertRevList, if_neg h]
        refine List.pairwise_cons.mpr ⟨?_, ih hp.2 (fun x hx => hne x (List.mem_cons_of_mem _ hx))⟩
        intro z hz
        rcases (mem_insertRevList t ys z).mp hz with rfl | hz
        · exact lt_of_le_of_ne (not_lt.mp h) (hne y (List.mem_cons_self _ _)).symm
        · exact hp.1 z hz

theorem mem_insertTimePt (tps : List Int) (t x : Int) :
    x ∈ insertTimePt tps t ↔ x = t ∨ x ∈ tps := by
  simp [insertTimePt, mem_insertRevList]

theorem pairwise_insertTimePt (tps : List Int) (t : Int)
    (hp : tps.Pairwise (· < ·)) (hne : t ∉ tps) :
    (insertTimePt tps t).Pairwise (· < ·) := by
  rw [insertTimePt, List.pairwise_reverse]
  refine pairwise_insertRevList t tps.reverse ?_ ?_
  · rw [List.pairwise_reverse]; exact hp
  · intro x hx hxt
    exact hne (by simpa [hxt] using List.mem_reverse.mp hx)

theorem addLineItem_dup_eq (r : Report) (l : LineItem) (lids : List LineItem)
    (hlook : mapLookup r.LineItems l.Start = some lids)
    (hdup : lids.any (fun lid => lid.UID == l.UID) = true) :
    r.AddLineItem l = r := by
  simp only [Report.AddLineItem, hlook, hdup, if_pos]

theorem addLineItem_append_eq (r : Report) (l : LineItem) (lids : List LineItem)
    (hlook : mapLookup r.LineItems l.Start = some lids)
    (hdup : ¬ lids.any (fun lid => lid.UID == l.UID) = true) :
    r.AddLineItem l =
      { LineItems := mapInsert r.LineItems l.Start (lids ++ [l]),
        TimePts := r.TimePts } := by
  simp only [Report.AddLineItem, hlook]
  rw [if_neg hdup]

theorem addLineItem_new_eq (r : Report) (l : LineItem)
    (hlook : mapLookup r.LineItems l.Start = none) :
    r.AddLineItem l =
      { LineItems := mapInsert r.LineItems l.Start [l],
        TimePts := insertTimePt r.TimePts l.Start } := by
  simp only [Report.AddLineItem, hlook]

theorem reportInv_empty : ReportInv Report.empty := by
  refine ⟨List.Pairwise.nil, ?_, ?_⟩
  · intro t ht; simp [Report.empty] at ht
  · intro p hp; simp [Report.empty] at hp

theorem reportInv_addLineItem (r : Report) (l : LineItem) (h : ReportInv r) :
    ReportInv (r.AddLineItem l) := by
  obtain ⟨h1, h2, h3⟩ := h
  cases hlook : mapLookup r.LineItems l.Start with
  | some lids =>
      by_cases hdup : lids.any (fun lid => lid.UID == l.UID) = true
      · rw [addLineItem_dup_eq r l lids hlook hdup]
        exact ⟨h1, h2, h3⟩
      · rw [addLineItem_append_eq r l lids hlook hdup]
        refine ⟨h1, ?_, ?_⟩
        · intro t ht
          dsimp only at ht ⊢
          by_cases hts : t = l.Start
          · subst hts; rw [mapLookup_insert_self]; rfl
          · rw [mapLookup_insert_ne _ _ _ _ hts]; exact h2 t ht
        · intro p hp
          dsimp only at hp ⊢
          rcases mem_mapInsert _ _ _ _ hp with rfl | hp2
          · exact h3 (l.Start, lids) (mapLookup_mem _ _ _ hlook)
          · exact h3 p hp2
  | none =>
      have hnotin : l.Start ∉ r.TimePts := by
        intro hin
        have h2' := h2 _ hin
        rw [hlook] at h2'
        simp at h2'
      rw [addLineItem_new_eq r l hlook]
      refine ⟨pairwise_insertTimePt _ _ h1 hnotin, ?_, ?_⟩
      · intro t ht
        dsimp only at ht ⊢
        by_cases hts : t = l.Start
        · subst hts; rw [mapLookup_insert_self]; rfl
        · rw [mapLookup_insert_ne _ _ _ _ hts]
          rcases (mem_insertTimePt _ _ _).mp ht with h' | ht2
          · exact absurd h' hts
          · exact h2 t ht2
      · intro p hp
        dsimp only at hp ⊢
        rcases mem_mapInsert _ _ _ _ hp with rfl | hp2
        · exact (mem_insertTimePt _ _ _).mpr (Or.inl rfl)
        · exact (mem_insertTimePt _ _ _).mpr (Or.inr (h3 p hp2))

theorem reportInv_buildReport (items : List LineItem) : ReportInv (buildReport items) := by
  have haux : ∀ r, ReportInv r → ReportInv (items.foldl Report.AddLineItem r) := by
    induction items with
    | nil => intro r h; exact h
    | cons i is ih => intro r h; exact ih _ (reportInv_addLineItem r i h)
  exact haux Report.empty reportInv_empty

/-- C2: after any sequence of `AddLineItem` calls on an initially empty
`Report`, the `TimePts` index is strictly ascending with no duplicates, and
its member set equals the key set of the `LineItems` map. -/
theorem buildReport_sorted_index (items : List LineItem) :
    (buildReport items).TimePts.Pairwise (· < ·) ∧
    (buildReport items).TimePts.Nodup ∧
    (∀ t : Int, t ∈ (buildReport items).TimePts ↔
      ∃ p ∈ (buildReport items).LineItems, p.1 = t) := by
  obtain ⟨h1, h2, h3⟩ := reportInv_buildReport items
  refine ⟨h1, h1.imp (fun h => ne_of_lt h), ?_⟩
  intro t
  constructor
  · intro ht
    have hs := h2 t ht
    rcases Option.isSome_iff_exists.mp hs with ⟨v, hv⟩
    exact ⟨(t, v), mapLookup_mem _ _ _ hv, rfl⟩
  · rintro ⟨p, hp, rfl⟩
    exact h3 p hp

theorem mem_filterByTime (r : Report) (s e : Int) (item : LineItem) :
    item ∈ r.FilterByTime s e ↔
      ∃ t ∈ r.TimePts.take (firstAfter e r.TimePts),
        item ∈ (mapLookup r.LineItems t).getD [] ∧ s < item.End := by
  rw [Report.FilterByTime, mem_foldl_append]
  simp only [List.not_mem_nil, false_or, List.mem_filter, decide_eq_true_eq]

/-- C1: for a store satisfying the sorted-index invariant (with coherent
buckets), a stored item with interval `[S, E]` appears in the result of
`FilterByTime(Ws, We)` iff `E` is strictly after `Ws` and `S` is at or before
`We`. -/
theorem filterByTime_overlap (r : Report) (s e : Int) (item : LineItem)
    (hSorted : r.TimePts.Pairwise (· < ·))
    (hKeys1 : ∀ t ∈ r.TimePts, (mapLookup r.LineItems t).isSome = true)
    (hKeys2 : ∀ p ∈ r.LineItems, p.1 ∈ r.TimePts)
    (hCoh : bucketsCoherent r)
    (hStored : storedIn r item) :
    item ∈ r.FilterByTime s e ↔ (s < item.End ∧ item.Start ≤ e) := by
  obtain ⟨t0, lids0, hlook0, hmem0⟩ := hStored
  have hstart0 : item.Start = t0 := hCoh (t0, lids0) (mapLookup_mem _ _ _ hlook0) item hmem0
  have ht0tp : t0 ∈ r.TimePts := hKeys2 (t0, lids0) (mapLookup_mem _ _ _ hlook0)
  rw [mem_filterByTime]
  constructor
  · rintro ⟨t, ht, hmem, hend⟩
    rcases hg : mapLookup r.LineItems t with _ | lids
    · rw [hg] at hmem; simp at hmem
    · rw [hg] at hmem
      simp only [Option.getD_some] at hmem
      have hstart : item.Start = t := hCoh (t, lids) (mapLookup_mem _ _ _ hg) item hmem
      have hte : t ∈ r.TimePts ∧ t ≤ e :=
        (mem_take_firstAfter e r.TimePts hSorted t).mp ht
      exact ⟨hend, hstart ▸ hte.2⟩
  · rintro ⟨hend, hle⟩
    refine ⟨t0, ?_, ?_, hend⟩
    · exact (mem_take_firstAfter e r.TimePts hSorted t0).mpr ⟨ht0tp, hstart0 ▸ hle⟩
    · rw [hlook0]; simpa using hmem0

theorem filterByTime_overlap_witness :
    itemA ∈ storeABC.FilterByTime 0 150 ↔ ((0:Int) < itemA.End ∧ itemA.Start ≤ 150) := by
  refine filterByTime_overlap storeABC 0 150 itemA ?_ ?_ ?_ ?_ ?_
  · decide
  · decide
  · decide
  · exact (by decide : ∀ p ∈ storeABC.LineItems, ∀ x ∈ p.2, x.Start = p.1)
  · exact ⟨100, [itemA, itemB], by decide, by decide⟩

theorem uid_in_bucket_after_add (r : Report) (l : LineItem) :
    ∃ lids, mapLookup (r.AddLineItem l).LineItems l.Start = some lids ∧
      lids.any (fun lid => lid.UID == l.UID) = true := by
  cases hlook : mapLookup r.LineItems l.Start with
  | some lids =>
      by_cases hdup : lids.any (fun lid => lid.UID == l.UID) = true
      · rw [addLineItem_dup_eq r l lids hlook hdup]
        exact ⟨lids, hlook, hdup⟩
      · rw [addLineItem_append_eq r l lids hlook hdup]
        refine ⟨lids ++ [l], mapLookup_insert_self _ _ _, ?_⟩
        simp [List.any_append]
  | none =>
      rw [addLineItem_new_eq r l hlook]
      exact ⟨[l], mapLookup_insert_self _ _ _, by simp⟩

/-- C3: an item whose UID already occurs in the bucket at its `Start` makes
`AddLineItem` a no-op, ingesting the same item twice equals ingesting it once,
and a fresh identity ends up with exactly one matching entry in its bucket. -/
theorem addLineItem_dedup_idempotent (r : Report) (l : LineItem) :
    (∀ lids, mapLookup r.LineItems l.Start = some lids →
        (∃ x ∈ lids, x.UID = l.UID) → r.AddLineItem l = r)
    ∧ (r.AddLineItem l).AddLineItem l = r.AddLineItem l
    ∧ (((mapLookup r.LineItems l.Start).getD []).countP (fun x => x.UID == l.UID) = 0 →
        ((mapLookup (r.AddLineItem l).LineItems l.Start).getD []).countP
          (fun x => x.UID == l.UID) = 1) := by
  refine ⟨?_, ?_, ?_⟩
  · intro lids hlook hex
    refine addLineItem_dup_eq r l lids hlook ?_
    rw [List.any_eq_true]
    obtain ⟨x, hx, hux⟩ := hex
    exact ⟨x, hx, beq_iff_eq.mpr hux⟩
  · obtain ⟨lids, hlook, hany⟩ := uid_in_bucket_after_add r l
    exact addLineItem_dup_eq _ l lids hlook hany
  · intro hzero
    cases hlook : mapLookup r.LineItems l.Start with
    | some lids =>
        rw [hlook] at hzero
        simp only [Option.getD_some] at hzero
        have hdup : ¬ lids.any (fun lid => lid.UID == l.UID) = true := by
          rw [List.any_eq_true]
          rintro ⟨x, hx, hux⟩
          have := List.countP_eq_zero.mp hzero x hx
          exact this hux
        rw [addLineItem_append_eq r l lids hlook hdup]
        dsimp only
        rw [mapLookup_insert_self]
        simp only [Option.getD_some, List.countP_append, hzero]
        simp
    | none =>
        rw [addLineItem_new_eq r l hlook]
        dsimp only
        rw [mapLookup_insert_self]
        simp

theorem addLineItem_dedup_idempotent_witness :
    buildReport [itemA] = { LineItems := [(100, [itemA])], TimePts := [100] }
    ∧ (buildReport [itemA]).AddLineItem itemA = buildReport [itemA] := by
  constructor
  · decide
  · exact (addLineItem_dedup_idempotent (buildReport [itemA]) itemA).1 [itemA]
      (by decide) ⟨itemA, by decide, rfl⟩

/-- C4: the append-to-existing-bucket step. `Report.AddLineItem` stores the
extended bucket back into the map, but the first version's
`Identity.AddLineItemID` appends only to the local copy of the slice header
and drops it, so after ingesting a second id with the same start time and a
fresh UID its bucket still holds only the first id. -/
theorem addLineItemID_append_lost :
    mapLookup ((Report.empty.AddLineItem itemA).AddLineItem itemB).LineItems 100
      = some [itemA, itemB]
    ∧ mapLookup ((V1.Identity.empty.AddLineItemID lidA).AddLineItemID lidB).LineItemIDs 100
      = some [lidA] := by
  exact ⟨by decide, by decide⟩

theorem resLookup_resAdd_ne (m : List (String × ℚ)) (k2 : String) (v : ℚ)
    (k : String) (hne : k2 ≠ k) : resLookup (resAdd m k2 v) k = resLookup m k := by
  induction m with
  | nil =>
      simp only [resAdd, resLookup, mapLookup]
      rw [if_neg hne]
  | cons p rest ih =>
      obtain ⟨k3, v3⟩ := p
      by_cases h3 : k3 = k2
      · subst h3
        simp only [resAdd, if_pos rfl, resLookup, mapLookup]
        rw [if_neg hne, if_neg hne]
      · simp only [resAdd, if_neg h3, resLookup, mapLookup]
        by_cases h3k : k3 = k
        · rw [if_pos h3k, if_pos h3k]
        · rw [if_neg h3k, if_neg h3k]
          exact ih

theorem groupFold_lookup_none (fields : List String) (k : String) :
    ∀ (items : List LineItem) (acc : List (String × ℚ)),
      (∀ item ∈ items, keyOf item fields = k → ¬ 0 < item.UnblendedCost) →
      resLookup acc k = none →
      resLookup (items.foldl (fun res item =>
        let key := keyOf item fields
        if 0 < item.UnblendedCost then resAdd res key item.UnblendedCost else res) acc) k
        = none := by
  intro items
  induction items with
  | nil => intro acc _ hacc; exact hacc
  | cons i is ih =>
      intro acc hall hacc
      rw [List.foldl_cons]
      refine ih _ (fun item hm => hall item (List.mem_cons_of_mem _ hm)) ?_
      by_cases hpos : 0 < i.UnblendedCost
      · dsimp only
        rw [if_pos hpos]
        have hki : keyOf i fields ≠ k :=
          fun hk => (hall i (List.mem_cons_self _ _) hk) hpos
        exact (resLookup_resAdd_ne acc (keyOf i fields) i.UnblendedCost k hki).trans hacc
      · dsimp only
        rw [if_neg hpos]
        exact hacc

/-- C5: an item with non-positive `UnblendedCost` contributes nothing to
`GroupBy` — removing it from the accumulation changes nothing — and a key
whose only in-window items have non-positive cost is absent from the result. -/
theorem groupBy_nonpositive_excluded (r : Report) (fields : List String)
    (s e : Int) (k : String) (items1 items2 : List LineItem) (item : LineItem)
    (hk : ∀ x ∈ r.FilterByTime s e, keyOf x fields = k → ¬ 0 < x.UnblendedCost)
    (hnp : ¬ 0 < item.UnblendedCost) :
    resLookup (r.GroupBy fields s e) k = none
    ∧ groupItems fields (items1 ++ item :: items2) = groupItems fields (items1 ++ items2) := by
  constructor
  · rw [Report.GroupBy, groupItems]
    exact groupFold_lookup_none fields k (r.FilterByTime s e) [] hk rfl
  · rw [groupItems, groupItems, List.foldl_append, List.foldl_append, List.foldl_cons]
    dsimp only
    rw [if_neg hnp]

theorem groupBy_nonpositive_excluded_witness :
    resLookup (storeAD.GroupBy ["lineItem/ProductCode"] 0 1000) "D" = none
    ∧ groupItems ["lineItem/ProductCode"] ([itemA] ++ itemD :: [])
      = groupItems ["lineItem/ProductCode"] ([itemA] ++ []) :=
  groupBy_nonpositive_excluded storeAD ["lineItem/ProductCode"] 0 1000 "D"
    [itemA] [] itemD (by decide) (by decide)

theorem specFieldValue_unrecognized (item : LineItem) (f : String)
    (hf : recognizedField f = false) : specFieldValue item f = none := by
  simp only [specFieldValue]
  split_ifs with h1 h2 h3 h4 h5 h6 h7 h8
  · subst h1; exact absurd hf (by decide)
  · subst h2; exact absurd hf (by decide)
  · subst h3; exact absurd hf (by decide)
  · subst h4; exact absurd hf (by decide)
  · subst h5; exact absurd hf (by decide)
  · subst h6; exact absurd hf (by decide)
  · subst h7; exact absurd hf (by decide)
  · subst h8; exact absurd hf (by decide)
  · rfl

theorem keyPartsOf_aux (item : LineItem) :
    ∀ (fields : List String) (acc : List String),
      fields.foldl
        (fun keyParts field =>
          if field = "lineItem/LineItemType" then keyParts ++ [item.LineItemType]
          else if field = "lineItem/Operation" then keyParts ++ [item.Operation]
          else if field = "lineItem/ProductCode" then keyParts ++ [item.ProductCode]
          else if field = "lineItem/ResourceId" then keyParts ++ [item.ResourceID]
          else if field = "lineItem/TaxType" then keyParts ++ [item.TaxType]
          else if field = "lineItem/UsageAccountId" then keyParts ++ [item.UsageAccountID]
          else if field = "lineItem/UsageType" then keyParts ++ [item.UsageType]
          else if field = "bill/PayerAccountId" then
            keyParts ++ [toString (item.Bill.getD billZero).PayerAccountID]
          else keyParts)
        acc
      = acc ++ fields.filterMap (specFieldValue item) := by
  intro fields
  induction fields with
  | nil => intro acc; simp
  | cons f fs ih =>
      intro acc
      rw [List.foldl_cons, List.filterMap_cons, ih]
      simp only [specFieldValue]
      split_ifs <;> simp

theorem keyPartsOf_eq_filterMap (item : LineItem) (fields : List String) :
    keyPartsOf item fields = fields.filterMap (specFieldValue item) := by
  rw [keyPartsOf, keyPartsOf_aux]
  simp

/-- C6: `GroupBy` builds the composite key by concatenating the recognized
requested fields' string values in the caller-supplied order joined by an
underscore; an unrecognized field name contributes nothing, so two different
unrecognized names yield the same key as each other. -/
theorem groupBy_key_construction (item : LineItem) (fields fs1 fs2 : List String)
    (f g : String) (hf : recognizedField f = false) (hg : recognizedField g = false) :
    keyOf item fields = String.intercalate "_" (fields.filterMap (specFieldValue item))
    ∧ keyOf item (fs1 ++ f :: fs2) = keyOf item (fs1 ++ g :: fs2) := by
  constructor
  · rw [keyOf, keyPartsOf_eq_filterMap]
  · rw [keyOf, keyOf, keyPartsOf_eq_filterMap, keyPartsOf_eq_filterMap,
      List.filterMap_append, List.filterMap_append, List.filterMap_cons,
      List.filterMap_cons, specFieldValue_unrecognized item f hf,
      specFieldValue_unrecognized item g hg]

theorem groupBy_key_construction_witness :
    keyOf itemA ["lineItem/ProductCode"]
      = String.intercalate "_" (List.filterMap (specFieldValue itemA) ["lineItem/ProductCode"])
    ∧ keyOf itemA (["lineItem/ProductCode"] ++ "bogus1" :: ["lineItem/Operation"])
      = keyOf itemA (["lineItem/ProductCode"] ++ "bogus2" :: ["lineItem/Operation"]) :=
  groupBy_key_construction itemA ["lineItem/ProductCode"] ["lineItem/ProductCode"]
    ["lineItem/Operation"] "bogus1" "bogus2" (by decide) (by decide)

/-- C8: evaluating `FilterByTime` or `GroupBy` leaves the `Report` unchanged:
the state-instrumented queries hand back the input store. -/
theorem queries_leave_store_unchanged (r : Report) (fields : List String) (s e : Int) :
    (r.FilterByTimeS s e).1 = r ∧ (r.GroupByS fields s e).1 = r :=
  ⟨rfl, rfl⟩

/-- C7: empty `normalizationFactor` or `unblendedRate` strings do not fail
construction (the parse error is suppressed), while a non-empty string failing
numeric parsing on those fields — and any parse failure on `blendedCost`,
`blendedRate`, `unblendedCost`, or `payerAccountId` — makes construction
return an error. -/
theorem newLineItem_numeric_leniency (env : ParseEnv)
    (id ti az bc br cc le desc lit nf op pc rid tt uc ur uai ua us ue ut
      entity billType invoiceID pid bstart bend t1 t2 : String) :
    ((env.parseFloat nf = none → nf ≠ "" →
        ∃ msg, NewLineItem env id ti az bc br cc le desc lit nf op pc rid tt uc ur uai ua us ue ut
          = Except.error msg)
    ∧ (env.parseFloat ur = none → ur ≠ "" →
        ∃ msg, NewLineItem env id ti az bc br cc le desc lit nf op pc rid tt uc ur uai ua us ue ut
          = Except.error msg)
    ∧ (env.parseFloat bc = none →
        ∃ msg, NewLineItem env id ti az bc br cc le desc lit nf op pc rid tt uc ur uai ua us ue ut
          = Except.error msg)
    ∧ (env.parseFloat br = none →
        ∃ msg, NewLineItem env id ti az bc br cc le desc lit nf op pc rid tt uc ur uai ua us ue ut
          = Except.error msg)
    ∧ (env.parseFloat uc = none →
        ∃ msg, NewLineItem env id ti az bc br cc le desc lit nf op pc rid tt uc ur uai ua us ue ut
          = Except.error msg)
    ∧ (env.parseUint pid = none →
        ∃ msg, NewBill env entity billType invoiceID pid bstart bend = Except.error msg)
    ∧ (splitOnChar '/' ti = [t1, t2] → (env.parseTime t1).isSome = true →
        (env.parseTime t2).isSome = true → (env.parseFloat bc).isSome = true →
        (env.parseFloat br).isSome = true → (env.parseFloat uc).isSome = true →
        (env.parseTime us).isSome = true → (env.parseTime ue).isSome = true →
        nf = "" → ur = "" →
        ∃ l, NewLineItem env id ti az bc br cc le desc lit nf op pc rid tt uc ur uai ua us ue ut
          = Except.ok l)) := by
  refine ⟨?_, ?_, ?_, ?_, ?_, ?_, ?_⟩
  case _ =>
    intro hnf hne
    rcases hsp : splitOnChar '/' ti with _ | ⟨a, _ | ⟨b, _ | ⟨c, l⟩⟩⟩ <;>
      simp only [NewLineItem, parseTimeField, parseFloatField, parseFloatLenient, hnf, hsp]
    · exact ⟨_, rfl⟩
    · exact ⟨_, rfl⟩
    · rcases env.parseTime a with _ | v1
      · exact ⟨_, rfl⟩
      · rcases env.parseTime b with _ | v2
        · exact ⟨_, rfl⟩
        · rcases env.parseFloat bc with _ | v3
          · exact ⟨_, rfl⟩
          · rcases env.parseFloat br with _ | v4
            · exact ⟨_, rfl⟩
            · rw [if_neg hne]
              exact ⟨_, rfl⟩
    · exact ⟨_, rfl⟩
  case _ =>
    intro hur hne
    rcases hsp : splitOnChar '/' ti with _ | ⟨a, _ | ⟨b, _ | ⟨c, l⟩⟩⟩ <;>
      simp only [NewLineItem, parseTimeField, parseFloatField, parseFloatLenient, hur, hsp]
    · exact ⟨_, rfl⟩
    · exact ⟨_, rfl⟩
    · rcases env.parseTime a with _ | v1
      · exact ⟨_, rfl⟩
      · rcases env.parseTime b with _ | v2
        · exact ⟨_, rfl⟩
        · rcases env.parseFloat bc with _ | v3
          · exact ⟨_, rfl⟩
          · rcases env.parseFloat br with _ | v4
            · exact ⟨_, rfl⟩
            · rcases env.parseFloat nf with _ | v5
              · by_cases hnfe : nf = ""
                · rw [if_pos hnfe]
                  rcases env.parseFloat uc with _ | v6
                  · exact ⟨_, rfl⟩
                  · rw [if_neg hne]
                    exact ⟨_, rfl⟩
                · rw [if_neg hnfe]
                  exact ⟨_, rfl⟩
              · rcases env.parseFloat uc with _ | v6
                · exact ⟨_, rfl⟩
                · rw [if_neg hne]
                  exact ⟨_, rfl⟩
    · exact ⟨_, rfl⟩
  case _ =>
    intro hbc
    rcases hsp : splitOnChar '/' ti with _ | ⟨a, _ | ⟨b, _ | ⟨c, l⟩⟩⟩ <;>
      simp only [NewLineItem, parseTimeField, parseFloatField, parseFloatLenient, hbc, hsp]
    · exact ⟨_, rfl⟩
    · exact ⟨_, rfl⟩
    · rcases env.parseTime a with _ | v1
      · exact ⟨_, rfl⟩
      · rcases env.parseTime b with _ | v2
        · exact ⟨_, rfl⟩
        · exact ⟨_, rfl⟩
    · exact ⟨_, rfl⟩
  case _ =>
    intro hbr
    rcases hsp : splitOnChar '/' ti with _ | ⟨a, _ | ⟨b, _ | ⟨c, l⟩⟩⟩ <;>
      simp only [NewLineItem, parseTimeField, parseFloatField, parseFloatLenient, hbr, hsp]
    · exact ⟨_, rfl⟩
    · exact ⟨_, rfl⟩
    · rcases env.parseTime a with _ | v1
      · exact ⟨_, rfl⟩
      · rcases env.parseTime b with _ | v2
        · exact ⟨_, rfl⟩
        · rcases env.parseFloat bc with _ | v3
          · exact ⟨_, rfl⟩
          · exact ⟨_, rfl⟩
    · exact ⟨_, rfl⟩
  case _ =>
    intro huc
    rcases hsp : splitOnChar '/' ti with _ | ⟨a, _ | ⟨b, _ | ⟨c, l⟩⟩⟩ <;>
      simp only [NewLineItem, parseTimeField, parseFloatField, parseFloatLenient, huc, hsp]
    · exact ⟨_, rfl⟩
    · exact ⟨_, rfl⟩
    · rcases env.parseTime a with _ | v1
      · exact ⟨_, rfl⟩
      · rcases env.parseTime b with _ | v2
        · exact ⟨_, rfl⟩
        · rcases env.parseFloat bc with _ | v3
          · exact ⟨_, rfl⟩
          · rcases env.parseFloat br with _ | v4
            · exact ⟨_, rfl⟩
            · rcases env.parseFloat nf with _ | v5
              · by_cases hnfe : nf = ""
                · rw [if_pos hnfe]
                  exact ⟨_, rfl⟩
                · rw [if_neg hnfe]
                  exact ⟨_, rfl⟩
              · exact ⟨_, rfl⟩
    · exact ⟨_, rfl⟩
  case _ =>
    intro hpid
    simp only [NewBill, hpid]
    exact ⟨_, rfl⟩
  case _ =>
    intro hsplit h1 h2 h3 h4 h5 h6 h7 hnf hur
    rcases Option.isSome_iff_exists.mp h1 with ⟨w1, hw1⟩
    rcases Option.isSome_iff_exists.mp h2 with ⟨w2, hw2⟩
    rcases Option.isSome_iff_exists.mp h3 with ⟨w3, hw3⟩
    rcases Option.isSome_iff_exists.mp h4 with ⟨w4, hw4⟩
    rcases Option.isSome_iff_exists.mp h5 with ⟨w5, hw5⟩
    rcases Option.isSome_iff_exists.mp h6 with ⟨w6, hw6⟩
    rcases Option.isSome_iff_exists.mp h7 with ⟨w7, hw7⟩
    subst hnf hur
    simp only [NewLineItem, parseTimeField, parseFloatField, parseFloatLenient,
      hsplit, hw1, hw2, hw3, hw4, hw5, hw6, hw7]
    rcases henv : env.parseFloat "" with _ | v0
    · exact ⟨_, rfl⟩
    · exact ⟨_, rfl⟩

theorem newLineItem_numeric_leniency_witness :
    (∃ msg, NewLineItem testEnv "id" "T1/T2" "az" "10" "10" "cc" "le" "d" "t"
        "bad" "op" "pc" "rid" "tt" "10" "" "acct" "ua" "T1" "T2" "ut"
      = Except.error msg)
    ∧ (∃ msg, NewLineItem testEnv "id" "T1/T2" "az" "bad" "10" "cc" "le" "d" "t"
        "" "op" "pc" "rid" "tt" "10" "" "acct" "ua" "T1" "T2" "ut"
      = Except.error msg)
    ∧ (∃ msg, NewBill testEnv "e" "bt" "inv" "bad" "T1" "T2" = Except.error msg)
    ∧ (∃ l, NewLineItem testEnv "id" "T1/T2" "az" "10" "10" "cc" "le" "d" "t"
        "" "op" "pc" "rid" "tt" "10" "" "acct" "ua" "T1" "T2" "ut"
      = Except.ok l) := by
  refine ⟨?_, ?_, ?_, ?_⟩
  · exact (newLineItem_numeric_leniency testEnv "id" "T1/T2" "az" "10" "10" "cc"
      "le" "d" "t" "bad" "op" "pc" "rid" "tt" "10" "" "acct" "ua" "T1" "T2" "ut"
      "e" "bt" "inv" "7" "T1" "T2" "T1" "T2").1 (by decide) (by decide)
  · exact (newLineItem_numeric_leniency testEnv "id" "T1/T2" "az" "bad" "10" "cc"
      "le" "d" "t" "" "op" "pc" "rid" "tt" "10" "" "acct" "ua" "T1" "T2" "ut"
      "e" "bt" "inv" "7" "T1" "T2" "T1" "T2").2.2.1 (by decide)
  · exact (newLineItem_numeric_leniency testEnv "id" "T1/T2" "az" "10" "10" "cc"
      "le" "d" "t" "" "op" "pc" "rid" "tt" "10" "" "acct" "ua" "T1" "T2" "ut"
      "e" "bt" "inv" "bad" "T1" "T2" "T1" "T2").2.2.2.2.2.1 (by decide)
  · exact (newLineItem_numeric_leniency testEnv "id" "T1/T2" "az" "10" "10" "cc"
      "le" "d" "t" "" "op" "pc" "rid" "tt" "10" "" "acct" "ua" "T1" "T2" "ut"
      "e" "bt" "inv" "7" "T1" "T2" "T1" "T2").2.2.2.2.2.2 (by decide) (by decide)
      (by decide) (by decide) (by decide) (by decide) (by decide) (by decide)
      rfl rfl

theorem bind_ok_inv {ε α β : Type} (x : Except ε α) (f : α → Except ε β) (b : β)
    (h : (x >>= f) = Except.ok b) : ∃ a, x = Except.ok a ∧ f a = Except.ok b := by
  cases x with
  | ok a => exact ⟨a, rfl, h⟩
  | error e => exact Except.noConfusion h

theorem parseFloatField_ok (env : ParseEnv) (s msg : String) (v : ℚ)
    (h : parseFloatField env s msg = Except.ok v) : env.parseFloat s = some v := by
  rw [parseFloatField] at h
  cases henv : env.parseFloat s with
  | some w => rw [henv] at h; cases h; rfl
  | none => rw [henv] at h; exact Except.noConfusion h

theorem newLineItem_sameRate (env : ParseEnv)
    (id ti az s cc le desc lit nf op pc rid tt uc ur uai ua us ue ut : String)
    (l : LineItem)
    (h : NewLineItem env id ti az s s cc le desc lit nf op pc rid tt uc ur uai ua us ue ut
      = Except.ok l) : l.BlendedRate = l.BlendedCost := by
  simp only [NewLineItem] at h
  rcases hsp : splitOnChar '/' ti with _ | ⟨a, _ | ⟨b, _ | ⟨c, l2⟩⟩⟩ <;> rw [hsp] at h
  · exact Except.noConfusion h
  · exact Except.noConfusion h
  · obtain ⟨v1, hv1, h⟩ := bind_ok_inv _ _ _ h
    obtain ⟨v2, hv2, h⟩ := bind_ok_inv _ _ _ h
    obtain ⟨v3, hv3, h⟩ := bind_ok_inv _ _ _ h
    obtain ⟨v4, hv4, h⟩ := bind_ok_inv _ _ _ h
    obtain ⟨v5, hv5, h⟩ := bind_ok_inv _ _ _ h
    obtain ⟨v6, hv6, h⟩ := bind_ok_inv _ _ _ h
    obtain ⟨v7, hv7, h⟩ := bind_ok_inv _ _ _ h
    obtain ⟨v8, hv8, h⟩ := bind_ok_inv _ _ _ h
    obtain ⟨v9, hv9, h⟩ := bind_ok_inv _ _ _ h
    cases h
    have e3 := parseFloatField_ok _ _ _ _ hv3
    have e4 := parseFloatField_ok _ _ _ _ hv4
    rw [e3] at e4
    cases e4
    rfl
  · exact Except.noConfusion h

theorem v1_newLineItem_sameRate (env : ParseEnv)
    (az s cc le desc lit nf op pc rid tt uc ur uai ua us ue ut : String)
    (li : V1.LineItem)
    (h : V1.NewLineItem env az s s cc le desc lit nf op pc rid tt uc ur uai ua us ue ut
      = Except.ok li) : li.BlendedRate = li.BlendedCost := by
  simp only [V1.NewLineItem] at h
  obtain ⟨v1, hv1, h⟩ := bind_ok_inv _ _ _ h
  obtain ⟨v2, hv2, h⟩ := bind_ok_inv _ _ _ h
  obtain ⟨v3, hv3, h⟩ := bind_ok_inv _ _ _ h
  obtain ⟨v4, hv4, h⟩ := bind_ok_inv _ _ _ h
  obtain ⟨v5, hv5, h⟩ := bind_ok_inv _ _ _ h
  obtain ⟨v6, hv6, h⟩ := bind_ok_inv _ _ _ h
  obtain ⟨v7, hv7, h⟩ := bind_ok_inv _ _ _ h
  cases h
  have e1 := parseFloatField_ok _ _ _ _ hv1
  have e2 := parseFloatField_ok _ _ _ _ hv2
  rw [e1] at e2
  cases e2
  rfl

/-- C9: both the `NewReport` row loop and the earlier `main` row loop feed the
blendedRate argument of the decoder from the `lineItem/BlendedCost` column, so
every successfully ingested record has `BlendedRate = BlendedCost`. -/
theorem blendedRate_eq_blendedCost (env : ParseEnv) (row rowp : String → String)
    (l : LineItem) (lid : V1.LineItemID) (li : V1.LineItem) :
    (reportRow env row = Except.ok l → l.BlendedRate = l.BlendedCost)
    ∧ (V1.mainRow env rowp = Except.ok lid → lid.LineItem = some li →
        li.BlendedRate = li.BlendedCost) := by
  constructor
  · intro h
    rw [reportRow] at h
    obtain ⟨l0, hl0, h⟩ := bind_ok_inv _ _ _ h
    obtain ⟨b0, hb0, h⟩ := bind_ok_inv _ _ _ h
    cases h
    exact newLineItem_sameRate env _ _ _ _ _ _ _ _ _ _ _ _ _ _ _ _ _ _ _ _ l0 hl0
  · intro h hli
    rw [V1.mainRow] at h
    obtain ⟨lid0, hlid0, h⟩ := bind_ok_inv _ _ _ h
    obtain ⟨b0, hb0, h⟩ := bind_ok_inv _ _ _ h
    obtain ⟨li0, hli0, h⟩ := bind_ok_inv _ _ _ h
    cases h
    simp only at hli
    cases hli
    exact v1_newLineItem_sameRate env _ _ _ _ _ _ _ _ _ _ _ _ _ _ _ _ _ _ _ hli0

theorem blendedRate_eq_blendedCost_witness :
    item9.BlendedRate = item9.BlendedCost ∧ li9.BlendedRate = li9.BlendedCost := by
  constructor
  · exact (blendedRate_eq_blendedCost testEnv row0 row0 item9 lid9 li9).1 (by rfl)
  · exact (blendedRate_eq_blendedCost testEnv row0 row0 item9 lid9 li9).2 (by rfl) (by rfl)

/-- C10: `NewLineItem` never reads its availability-zone and usage-amount
arguments: the result is independent of them, and every successfully
constructed item has `AvailabilityZone = ""` and `UsageAmount = 0`. -/
theorem newLineItem_ignores_az_usageAmount (env : ParseEnv)
    (id ti az az2 bc br cc le desc lit nf op pc rid tt uc ur uai ua ua2 us ue ut : String)
    (l : LineItem) :
    NewLineItem env id ti az bc br cc le desc lit nf op pc rid tt uc ur uai ua us ue ut
      = NewLineItem env id ti az2 bc br cc le desc lit nf op pc rid tt uc ur uai ua2 us ue ut
    ∧ (NewLineItem env id ti az bc br cc le desc lit nf op pc rid tt uc ur uai ua us ue ut
        = Except.ok l → l.AvailabilityZone = "" ∧ l.UsageAmount = 0) := by
  constructor
  · rfl
  · intro h
    simp only [NewLineItem] at h
    rcases hsp : splitOnChar '/' ti with _ | ⟨a, _ | ⟨b, _ | ⟨c, l2⟩⟩⟩ <;> rw [hsp] at h
    · exact Except.noConfusion h
    · exact Except.noConfusion h
    · obtain ⟨v1, hv1, h⟩ := bind_ok_inv _ _ _ h
      obtain ⟨v2, hv2, h⟩ := bind_ok_inv _ _ _ h
      obtain ⟨v3, hv3, h⟩ := bind_ok_inv _ _ _ h
      obtain ⟨v4, hv4, h⟩ := bind_ok_inv _ _ _ h
      obtain ⟨v5, hv5, h⟩ := bind_ok_inv _ _ _ h
      obtain ⟨v6, hv6, h⟩ := bind_ok_inv _ _ _ h
      obtain ⟨v7, hv7, h⟩ := bind_ok_inv _ _ _ h
      obtain ⟨v8, hv8, h⟩ := bind_ok_inv _ _ _ h
      obtain ⟨v9, hv9, h⟩ := bind_ok_inv _ _ _ h
      cases h
      exact ⟨rfl, rfl⟩
    · exact Except.noConfusion h

theorem newLineItem_ignores_az_usageAmount_witness :
    item10.AvailabilityZone = "" ∧ item10.UsageAmount = 0 :=
  (newLineItem_ignores_az_usageAmount testEnv "" "T1/T2" "zone-a" "zone-b" "10" "10"
    "" "" "" "" "" "" "" "" "" "5" "" "" "99" "77" "T1" "T2" "" item10).2 (by rfl)

end AwsBilling

